import Mathlib

/-!
Verification of the link-aggregation voting core (AI-Tech-Aggregator).

Shallow embedding of the server's voting/ranking subsystem:
the mongoose schemas (User with `upvotedLinks`, Link with `status`/`score`)
and the Express route handlers for listing approved links, submitting a
link, and casting a vote.  Mongo ObjectIds are modelled as `Nat`
(every `Nat` passes the `ObjectId.isValid` format check of the route),
timestamps as `Nat`, and the two collections as lists of records.
Each mongoose call used by the routes (`find`, `findById`, `updateOne`
with `$push`, `findByIdAndUpdate` with `$inc`, `save` under the unique
index on `url`) is embedded as an explicit function on the store.
-/

namespace Agg

/-- Link moderation status, the `enum: ['pending','approved','rejected']`
of the Link schema. -/
inductive Status where
  | pending
  | approved
  | rejected
deriving DecidableEq, Repr

/-- User role, the `enum: ['member','curator','admin']` of the User schema. -/
inductive Role where
  | member
  | curator
  | admin
deriving DecidableEq, Repr

/-- A User document: `username`, `email`, `password`, `role`,
`upvotedLinks` (array of Link ids), `createdAt`. -/
structure User where
  id : Nat
  username : String
  email : String
  password : String
  role : Role
  upvotedLinks : List Nat
  createdAt : Nat
deriving DecidableEq, Repr

/-- A Link document as the vote route uses it: `url`, `user` (owner id),
cached `username`, `status`, `score`, `createdAt`. -/
structure Link where
  id : Nat
  url : String
  user : Nat
  username : String
  status : Status
  score : Nat
  createdAt : Nat
deriving DecidableEq, Repr

/-- The durable store: the `users` and `links` collections, plus the
counter modelling Mongo's fresh ObjectId generation for new documents. -/
structure Db where
  users : List User
  links : List Link
  nextId : Nat
deriving DecidableEq, Repr

instance {ε : Type _} {α : Type _} [DecidableEq ε] [DecidableEq α] :
    DecidableEq (Except ε α) := fun a b =>
  match a, b with
  | .error e1, .error e2 =>
    if h : e1 = e2 then isTrue (by rw [h]) else isFalse (fun hc => h (Except.error.inj hc))
  | .ok a1, .ok a2 =>
    if h : a1 = a2 then isTrue (by rw [h]) else isFalse (fun hc => h (Except.ok.inj hc))
  | .error _, .ok _ => isFalse (fun hc => Except.noConfusion hc)
  | .ok _, .error _ => isFalse (fun hc => Except.noConfusion hc)

/-- `User.findById(id)`: point lookup in the users collection. -/
def findUser (db : Db) (uid : Nat) : Option User :=
  db.users.find? (fun u => u.id == uid)

/-- `Link.findById(id)`: point lookup in the links collection. -/
def findLink (db : Db) (lid : Nat) : Option Link :=
  db.links.find? (fun l => l.id == lid)

/-- Apply `f` to the first user whose id matches, leaving every other
document untouched (the single-document semantics of `updateOne`). -/
def updateFirstUser (us : List User) (uid : Nat) (f : User → User) : List User :=
  match us with
  | [] => []
  | u :: rest => if u.id == uid then f u :: rest else u :: updateFirstUser rest uid f

/-- Apply `f` to the first link whose id matches, leaving every other
document untouched (the single-document semantics of `findByIdAndUpdate`). -/
def updateFirstLink (ls : List Link) (lid : Nat) (f : Link → Link) : List Link :=
  match ls with
  | [] => []
  | l :: rest => if l.id == lid then f l :: rest else l :: updateFirstLink rest lid f

/-- Write A of the vote route:
`User.updateOne({_id:userId},{$push:{upvotedLinks:linkId}})`. -/
def pushUpvote (db : Db) (userId linkId : Nat) : Db :=
  { db with users :=
      (updateFirstUser db.users userId
        (fun u => { u with upvotedLinks := u.upvotedLinks ++ [linkId] })) }

/-- Write B of the vote route:
`Link.findByIdAndUpdate(linkId,{$inc:{score:1}},{new:true})`. -/
def incScore (db : Db) (linkId : Nat) : Db :=
  { db with links :=
      (updateFirstLink db.links linkId (fun l => { l with score := l.score + 1 })) }

/-- The error responses of `PATCH /api/links/:id/vote`, one constructor per
distinct response the handler can send (status code and message):
`linkNotFound` = 404 "Link not found", `notApproved` = 403 "Only approved
links can be voted on", `userNotFound` = 404 "User not found",
`alreadyVoted` = 400 "You have already voted for this link",
`serverError` = the catch-all 500. -/
inductive VoteError where
  | linkNotFound
  | notApproved
  | userNotFound
  | alreadyVoted
  | serverError
deriving DecidableEq, Repr

/-- The read/check phase of the vote route, exactly in source order:
find the link (404 if absent), require `status === 'approved'` (403),
find the user (404), and require that `upvotedLinks` does not already
contain the link id (400 duplicate).  Returns `none` when every check
passes.  The route performs no further check after this phase. -/
def voteCheck (db : Db) (linkId userId : Nat) : Option VoteError :=
  match findLink db linkId with
  | none => some .linkNotFound
  | some link =>
    if link.status ≠ .approved then some .notApproved
    else
      match findUser db userId with
      | none => some .userNotFound
      | some user =>
        if user.upvotedLinks.any (fun v => v == linkId) then some .alreadyVoted
        else none

/-- The write phase of the vote route: the two separate single-document
writes, in source order (push onto the user's `upvotedLinks`, then
increment the link's `score`). -/
def voteWrites (db : Db) (linkId userId : Nat) : Db :=
  incScore (pushUpvote db userId linkId) linkId

/-- `PATCH /api/links/:id/vote` run to completion with no storage failure:
the check phase, then (when it passes) both writes, then the response
`{id, score}` built from the updated link returned by
`findByIdAndUpdate(...,{new:true})`.  Error responses leave the store
unchanged. -/
def castVote (db : Db) (linkId userId : Nat) : Db × Except VoteError Nat :=
  match voteCheck db linkId userId with
  | some e => (db, .error e)
  | none =>
    let db2 := voteWrites db linkId userId
    match findLink db2 linkId with
    | some l2 => (db2, .ok l2.score)
    | none => (db2, .error .serverError)

/-- The settled store when write A of the vote route succeeded and write B
failed: the handler's catch block returns 500 with no compensation or
retry, so the push onto `upvotedLinks` stays applied and the score
increment is lost.  This is the prefix of `voteWrites` at the await
boundary between the two writes. -/
def castVoteFirstWriteOnly (db : Db) (linkId userId : Nat) : Db :=
  pushUpvote db userId linkId

/-- Number of distinct users whose `upvotedLinks` contains `linkId`
(each user document counted once). -/
def voterCount (db : Db) (linkId : Nat) : Nat :=
  (db.users.filter (fun u => u.upvotedLinks.any (fun v => v == linkId))).length

/-- The link's stored score, when the link exists. -/
def scoreOf (db : Db) (linkId : Nat) : Option Nat :=
  (findLink db linkId).map Link.score

/-- The consistency invariant: every link's `score` equals the number of
distinct users whose `upvotedLinks` contains that link's id. -/
def scoreInv (db : Db) : Bool :=
  db.links.all (fun l => l.score == voterCount db l.id)

/-- The error responses of `POST /api/links`, one constructor per distinct
response the handler can send: `urlRequired` = 400 "URL is required",
`userNotFound` = 404 "User not found", `serverError` = the catch-all 500
"Server Error during link submission" (a duplicate-key error from the
unique index on `url` is not matched by any specific branch of the catch
block, so it lands here).  `conflictError` is modelled from the spec: the
distinguishable ConflictError kind the spec requires for duplicate urls;
no branch of the route ever produces it. -/
inductive SubmitError where
  | urlRequired
  | userNotFound
  | serverError
  | conflictError
deriving DecidableEq, Repr

/-- The success response of `POST /api/links`: `{id, url, status, username}`. -/
structure SubmitResponse where
  id : Nat
  url : String
  status : Status
  username : String
deriving DecidableEq, Repr

/-- `POST /api/links`: reject a falsy (empty) `url` with 400, look up the
caller's user document (404 if absent), then save a new Link with
`status:'pending'`, `score:0`, `user:userId`, cached `username`.  The
unique index on `url` makes `save()` throw on an exact duplicate, which
the catch block surfaces as the generic 500.  `now` is the `Date.now`
default for `createdAt`; the fresh ObjectId is `db.nextId`.  Error
responses leave the store unchanged. -/
def submitLink (db : Db) (url : String) (userId : Nat) (now : Nat) :
    Db × Except SubmitError SubmitResponse :=
  if url = "" then (db, .error .urlRequired)
  else
    match findUser db userId with
    | none => (db, .error .userNotFound)
    | some user =>
      if db.links.any (fun l => l.url == url) then (db, .error .serverError)
      else
        let newLink : Link :=
          { id := db.nextId, url := url, user := userId, username := user.username,
            status := .pending, score := 0, createdAt := now }
        ({ db with links := db.links ++ [newLink], nextId := db.nextId + 1 },
         .ok { id := db.nextId, url := url, status := .pending, username := user.username })

/-- The ordering of `.sort({score:-1, createdAt:-1})`: higher score first,
ties broken by later `createdAt` first. -/
def linkRank (a b : Link) : Prop :=
  b.score < a.score ∨ (a.score = b.score ∧ b.createdAt ≤ a.createdAt)

instance : DecidableRel linkRank := fun a b => by
  unfold linkRank
  exact inferInstance

instance : IsTotal Link linkRank where
  total a b := by
    unfold linkRank
    rcases Nat.lt_trichotomy a.score b.score with h | h | h
    · exact Or.inr (Or.inl h)
    · rcases Nat.le_total a.createdAt b.createdAt with h2 | h2
      · exact Or.inr (Or.inr ⟨h.symm, h2⟩)
      · exact Or.inl (Or.inr ⟨h, h2⟩)
    · exact Or.inl (Or.inl h)

instance : IsTrans Link linkRank where
  trans a b c hab hbc := by
    unfold linkRank at *
    rcases hab with h1 | ⟨e1, t1⟩ <;> rcases hbc with h2 | ⟨e2, t2⟩
    · exact Or.inl (Nat.lt_trans h2 h1)
    · exact Or.inl (e2 ▸ h1)
    · exact Or.inl (e1 ▸ h2)
    · exact Or.inr ⟨e1.trans e2, Nat.le_trans t2 t1⟩

/-- `GET /api/links`: `Link.find({status:'approved'}).sort({score:-1,
createdAt:-1})` — the approved links, ordered by score descending with
ties broken newest first. -/
def listApproved (db : Db) : List Link :=
  List.insertionSort linkRank (db.links.filter (fun l => l.status == .approved))

/-- The response objects of `GET /api/links`: `{id, url, username, score}`. -/
def listResponse (db : Db) : List (Nat × String × String × Nat) :=
  (listApproved db).map (fun l => (l.id, l.url, l.username, l.score))

/-- The error outcomes of the Moderation Gate. -/
inductive ModError where
  | notFound
  | invalidState
deriving DecidableEq, Repr

/-- Set the first matching link's status. -/
def setStatus (db : Db) (linkId : Nat) (st : Status) : Db :=
  { db with links := updateFirstLink db.links linkId (fun l => { l with status := st }) }

/-- Modelled from the spec: the Moderation Gate's `approve(linkId)` — no
moderation route exists in the server source, only the `status` enum it
writes and the routes that read it.  Per the spec's state machine,
`approve` succeeds only from `pending`, transitioning to `approved`; from
any other status it fails with `InvalidStateError` and changes nothing. -/
def approve (db : Db) (linkId : Nat) : Db × Except ModError Status :=
  match findLink db linkId with
  | none => (db, .error .notFound)
  | some link =>
    if link.status = .pending then (setStatus db linkId .approved, .ok .approved)
    else (db, .error .invalidState)

/-- Modelled from the spec: the Moderation Gate's `reject(linkId)` — no
moderation route exists in the server source.  Per the spec's state
machine, `reject` succeeds only from `pending`, transitioning to
`rejected`; from any other status it fails with `InvalidStateError` and
changes nothing. -/
def reject (db : Db) (linkId : Nat) : Db × Except ModError Status :=
  match findLink db linkId with
  | none => (db, .error .notFound)
  | some link =>
    if link.status = .pending then (setStatus db linkId .rejected, .ok .rejected)
    else (db, .error .invalidState)

/-- Split a character list at the first occurrence of "://", returning
the (reversed-accumulated) scheme part and the remainder. -/
def schemeSplit (acc : List Char) : List Char → Option (List Char × List Char)
  | ':' :: '/' :: '/' :: rest => some (acc.reverse, rest)
  | c :: rest => schemeSplit (c :: acc) rest
  | [] => none

/-- Modelled from the spec: "url must be syntactically a URL (scheme+host
parseable)" — a minimal rendering: the string splits at "://" into a
non-empty scheme and a non-empty remainder. -/
def isSyntacticURL (s : String) : Bool :=
  match schemeSplit [] s.toList with
  | some (scheme, rest) => !scheme.isEmpty && !rest.isEmpty
  | none => false

/- Sample documents used by the closed theorems. -/

/-- Sample user with no prior votes. -/
def alice : User :=
  { id := 10, username := "alice", email := "a@x", password := "h", role := .member,
    upvotedLinks := [], createdAt := 0 }

/-- Sample user who already upvoted link 1. -/
def bob : User :=
  { id := 11, username := "bob", email := "b@x", password := "h", role := .member,
    upvotedLinks := [1], createdAt := 0 }

/-- Sample approved link with one recorded voter (bob). -/
def link1 : Link :=
  { id := 1, url := "https://x.com/a", user := 10, username := "alice",
    status := .approved, score := 1, createdAt := 5 }

/-- Sample pending link. -/
def link2 : Link :=
  { id := 2, url := "https://x.com/b", user := 10, username := "alice",
    status := .pending, score := 0, createdAt := 6 }

/-- Sample store satisfying the score invariant. -/
def dbA : Db :=
  { users := [alice, bob], links := [link1, link2], nextId := 100 }

/-! Helper lemmas about the store primitives. -/

theorem find?_updateFirstUser_self (us : List User) (uid : Nat) (f : User → User)
    (hf : ∀ u, (f u).id = u.id) :
    (updateFirstUser us uid f).find? (fun u => u.id == uid) =
      (us.find? (fun u => u.id == uid)).map f := by
  induction us with
  | nil => rfl
  | cons u rest ih =>
    by_cases h : u.id = uid
    · simp [updateFirstUser, List.find?, h, hf]
    · have hb : (u.id == uid) = false := by simp [h]
      simp [updateFirstUser, List.find?, hb, ih]

theorem find?_updateFirstUser_ne (us : List User) (uid j : Nat) (f : User → User)
    (hf : ∀ u, (f u).id = u.id) (hj : j ≠ uid) :
    (updateFirstUser us uid f).find? (fun u => u.id == j) =
      us.find? (fun u => u.id == j) := by
  induction us with
  | nil => rfl
  | cons u rest ih =>
    by_cases h : u.id = uid
    · have h1 : ((f u).id == j) = false := by simp [hf, h, Ne.symm hj]
      have h2 : (u.id == j) = false := by simp [h, Ne.symm hj]
      have h3 : (uid == j) = false := by simp [Ne.symm hj]
      simp [updateFirstUser, h, List.find?, h1, h2, h3]
    · have hb : (u.id == uid) = false := by simp [h]
      simp [updateFirstUser, hb, List.find?, ih]

theorem find?_updateFirstLink_self (ls : List Link) (lid : Nat) (f : Link → Link)
    (hf : ∀ l, (f l).id = l.id) :
    (updateFirstLink ls lid f).find? (fun l => l.id == lid) =
      (ls.find? (fun l => l.id == lid)).map f := by
  induction ls with
  | nil => rfl
  | cons l rest ih =>
    by_cases h : l.id = lid
    · simp [updateFirstLink, List.find?, h, hf]
    · have hb : (l.id == lid) = false := by simp [h]
      simp [updateFirstLink, List.find?, hb, ih]

theorem find?_updateFirstLink_ne (ls : List Link) (lid j : Nat) (f : Link → Link)
    (hf : ∀ l, (f l).id = l.id) (hj : j ≠ lid) :
    (updateFirstLink ls lid f).find? (fun l => l.id == j) =
      ls.find? (fun l => l.id == j) := by
  induction ls with
  | nil => rfl
  | cons l rest ih =>
    by_cases h : l.id = lid
    · have h1 : ((f l).id == j) = false := by simp [hf, h, Ne.symm hj]
      have h2 : (l.id == j) = false := by simp [h, Ne.symm hj]
      have h3 : (lid == j) = false := by simp [Ne.symm hj]
      simp [updateFirstLink, h, List.find?, h1, h2, h3]
    · have hb : (l.id == lid) = false := by simp [h]
      simp [updateFirstLink, hb, List.find?, ih]

theorem length_updateFirstUser (us : List User) (uid : Nat) (f : User → User) :
    (updateFirstUser us uid f).length = us.length := by
  induction us with
  | nil => rfl
  | cons u rest ih =>
    by_cases h : u.id = uid <;> simp [updateFirstUser, h, ih]

theorem length_updateFirstLink (ls : List Link) (lid : Nat) (f : Link → Link) :
    (updateFirstLink ls lid f).length = ls.length := by
  induction ls with
  | nil => rfl
  | cons l rest ih =>
    by_cases h : l.id = lid <;> simp [updateFirstLink, h, ih]

theorem findLink_pushUpvote (db : Db) (userId linkId x : Nat) :
    findLink (pushUpvote db userId linkId) x = findLink db x := rfl

theorem findUser_incScore (db : Db) (linkId x : Nat) :
    findUser (incScore db linkId) x = findUser db x := rfl

theorem findUser_pushUpvote_self (db : Db) (userId linkId : Nat) :
    findUser (pushUpvote db userId linkId) userId =
      (findUser db userId).map
        (fun u => { u with upvotedLinks := u.upvotedLinks ++ [linkId] }) := by
  unfold findUser pushUpvote
  exact find?_updateFirstUser_self db.users userId _ (fun u => rfl)

theorem findUser_pushUpvote_ne (db : Db) (userId linkId j : Nat) (hj : j ≠ userId) :
    findUser (pushUpvote db userId linkId) j = findUser db j := by
  unfold findUser pushUpvote
  exact find?_updateFirstUser_ne db.users userId j _ (fun u => rfl) hj

theorem findLink_incScore_self (db : Db) (linkId : Nat) :
    findLink (incScore db linkId) linkId =
      (findLink db linkId).map (fun l => { l with score := l.score + 1 }) := by
  unfold findLink incScore
  exact find?_updateFirstLink_self db.links linkId _ (fun l => rfl)

theorem findLink_incScore_ne (db : Db) (linkId j : Nat) (hj : j ≠ linkId) :
    findLink (incScore db linkId) j = findLink db j := by
  unfold findLink incScore
  exact find?_updateFirstLink_ne db.links linkId j _ (fun l => rfl) hj

/-- Reads of `voteWrites`: the voted link's document gains exactly one
score point, the voter's document gains exactly the link id at the end of
`upvotedLinks`, and every other document is read back unchanged. -/
theorem voteWrites_reads (db : Db) (linkId userId : Nat) :
    findLink (voteWrites db linkId userId) linkId =
      (findLink db linkId).map (fun l => { l with score := l.score + 1 }) ∧
    findUser (voteWrites db linkId userId) userId =
      (findUser db userId).map
        (fun u => { u with upvotedLinks := u.upvotedLinks ++ [linkId] }) ∧
    (∀ j, j ≠ linkId → findLink (voteWrites db linkId userId) j = findLink db j) ∧
    (∀ j, j ≠ userId → findUser (voteWrites db linkId userId) j = findUser db j) := by
  refine ⟨?_, ?_, ?_, ?_⟩
  · rw [voteWrites, findLink_incScore_self, findLink_pushUpvote]
  · rw [voteWrites, findUser_incScore, findUser_pushUpvote_self]
  · intro j hj
    rw [voteWrites, findLink_incScore_ne _ _ _ hj, findLink_pushUpvote]
  · intro j hj
    rw [voteWrites, findUser_incScore, findUser_pushUpvote_ne _ _ _ _ hj]

/-- When all four checks of the vote route pass, the check phase returns
no error. -/
theorem voteCheck_pass (db : Db) (linkId userId : Nat) (link : Link) (user : User)
    (hl : findLink db linkId = some link) (ha : link.status = .approved)
    (hu : findUser db userId = some user) (hnv : linkId ∉ user.upvotedLinks) :
    voteCheck db linkId userId = none := by
  have hany : (user.upvotedLinks.any (fun v => v == linkId)) = false := by
    rw [List.any_eq_false]
    intro v hv
    simp only [beq_iff_eq]
    intro hvl
    exact hnv (hvl ▸ hv)
  unfold voteCheck
  rw [hl]
  simp [ha, hu, hany]

/-- A successful vote: the route returns the incremented score, the two
written documents are read back with exactly the two intended changes, and
everything else is unchanged. -/
theorem castVote_success (db : Db) (linkId userId : Nat) (link : Link) (user : User)
    (hl : findLink db linkId = some link) (ha : link.status = .approved)
    (hu : findUser db userId = some user) (hnv : linkId ∉ user.upvotedLinks) :
    castVote db linkId userId = (voteWrites db linkId userId, .ok (link.score + 1)) ∧
    findLink (voteWrites db linkId userId) linkId =
      some { link with score := link.score + 1 } ∧
    findUser (voteWrites db linkId userId) userId =
      some { user with upvotedLinks := user.upvotedLinks ++ [linkId] } := by
  have hc := voteCheck_pass db linkId userId link user hl ha hu hnv
  obtain ⟨hfl, hfu, _, _⟩ := voteWrites_reads db linkId userId
  rw [hl] at hfl
  rw [hu] at hfu
  refine ⟨?_, hfl, hfu⟩
  unfold castVote
  rw [hc]
  simp [hfl]

/-- Setting a link's status rewrites exactly that field of the first
matching document. -/
theorem findLink_setStatus_self (db : Db) (linkId : Nat) (st : Status) :
    findLink (setStatus db linkId st) linkId =
      (findLink db linkId).map (fun l => { l with status := st }) := by
  unfold findLink setStatus
  exact find?_updateFirstLink_self db.links linkId _ (fun l => rfl)

/-! The claims. -/

/-- C1: the vote route's two writes are not one atomic unit.  From a store
satisfying the score invariant, a castVote whose checks pass and whose
first write (the push onto `upvotedLinks`) succeeds while the second (the
score increment) fails settles — via the handler's compensation-free catch
block — in a store where the invariant is false: the user's `upvotedLinks`
contains the link but its score was never incremented. -/
theorem C1_partialWriteBreaksInvariant :
    scoreInv dbA = true ∧ voteCheck dbA 1 10 = none ∧
    scoreInv (castVoteFirstWriteOnly dbA 1 10) = false := by decide

/-- C2: the duplicate-check-then-write sequence of the vote route admits a
race.  Two concurrent castVote(1,10) calls that both run the check phase
against the same store before either writes both pass (the check is the
same pure read), and after both write phases run the link's score has
risen by 2 while only one distinct user holds the link in `upvotedLinks`
— which now contains the id twice — so the claim's "exactly one success,
N-1 DuplicateVoteError failures, score +1" fails. -/
theorem C2_checkThenActRace :
    voteCheck dbA 1 10 = none ∧
    scoreOf (voteWrites (voteWrites dbA 1 10) 1 10) 1 = some 3 ∧
    voterCount (voteWrites (voteWrites dbA 1 10) 1 10) 1 = 2 ∧
    (findUser (voteWrites (voteWrites dbA 1 10) 1 10) 10).map User.upvotedLinks =
      some [1, 1] ∧
    scoreInv (voteWrites (voteWrites dbA 1 10) 1 10) = false := by decide

/-- C3: castVote checks its preconditions in the fixed source order,
short-circuiting on the first failure: missing link gives the 404
Link-not-found response; an unapproved link gives the 403 response
regardless of vote history; a missing user gives the 404 User-not-found
response; a link already in the user's `upvotedLinks` gives the
distinguishable already-voted response; and only when all four pass does
the vote take effect, returning the link's new score.  Every failure
leaves the store unchanged. -/
theorem C3_checkOrder (db : Db) (linkId userId : Nat) :
    (findLink db linkId = none →
      castVote db linkId userId = (db, .error .linkNotFound)) ∧
    (∀ link, findLink db linkId = some link → link.status ≠ .approved →
      castVote db linkId userId = (db, .error .notApproved)) ∧
    (∀ link, findLink db linkId = some link → link.status = .approved →
      findUser db userId = none →
      castVote db linkId userId = (db, .error .userNotFound)) ∧
    (∀ link user, findLink db linkId = some link → link.status = .approved →
      findUser db userId = some user → linkId ∈ user.upvotedLinks →
      castVote db linkId userId = (db, .error .alreadyVoted)) ∧
    VoteError.alreadyVoted ≠ VoteError.serverError ∧
    (∀ link user, findLink db linkId = some link → link.status = .approved →
      findUser db userId = some user → linkId ∉ user.upvotedLinks →
      castVote db linkId userId =
        (voteWrites db linkId userId, .ok (link.score + 1))) := by
  refine ⟨?_, ?_, ?_, ?_, by decide, ?_⟩
  · intro h
    unfold castVote voteCheck
    rw [h]
  · intro link hl hs
    unfold castVote voteCheck
    rw [hl]
    simp [hs]
  · intro link hl hs hu
    unfold castVote voteCheck
    rw [hl]
    simp [hs, hu]
  · intro link user hl hs hu hmem
    have hany : (user.upvotedLinks.any (fun v => v == linkId)) = true := by
      rw [List.any_eq_true]
      exact ⟨linkId, hmem, by simp⟩
    unfold castVote voteCheck
    rw [hl]
    simp [hs, hu, hany]
  · intro link user hl hs hu hnv
    exact (castVote_success db linkId userId link user hl hs hu hnv).1

/-- C3 witness: each branch of the precondition order exercised on the
sample store. -/
theorem C3_checkOrder_witness :
    castVote dbA 99 10 = (dbA, Except.error VoteError.linkNotFound) ∧
    castVote dbA 2 10 = (dbA, Except.error VoteError.notApproved) ∧
    castVote dbA 1 99 = (dbA, Except.error VoteError.userNotFound) ∧
    castVote dbA 1 11 = (dbA, Except.error VoteError.alreadyVoted) ∧
    castVote dbA 1 10 = (voteWrites dbA 1 10, Except.ok (link1.score + 1)) :=
  ⟨(C3_checkOrder dbA 99 10).1 (by decide),
   (C3_checkOrder dbA 2 10).2.1 link2 (by decide) (by decide),
   (C3_checkOrder dbA 1 99).2.2.1 link1 (by decide) (by decide) (by decide),
   (C3_checkOrder dbA 1 11).2.2.2.1 link1 bob (by decide) (by decide) (by decide)
     (by decide),
   (C3_checkOrder dbA 1 10).2.2.2.2.2 link1 alice (by decide) (by decide) (by decide)
     (by decide)⟩

/-- C4: on an approved link with no prior vote by the user, two sequential
castVote calls yield one success (returning the incremented score) and
then the already-voted error, with the score having risen by exactly one
across the two calls and the failing second call leaving the store
unchanged. -/
theorem C4_atMostOnce (db : Db) (linkId userId : Nat) (link : Link) (user : User)
    (hl : findLink db linkId = some link) (ha : link.status = .approved)
    (hu : findUser db userId = some user) (hnv : linkId ∉ user.upvotedLinks) :
    ∃ db1, castVote db linkId userId = (db1, .ok (link.score + 1)) ∧
      castVote db1 linkId userId = (db1, .error .alreadyVoted) ∧
      scoreOf db1 linkId = some (link.score + 1) ∧
      scoreOf db linkId = some link.score := by
  obtain ⟨h1, hfl, hfu⟩ := castVote_success db linkId userId link user hl ha hu hnv
  have hc2 : voteCheck (voteWrites db linkId userId) linkId userId =
      some .alreadyVoted := by
    unfold voteCheck
    rw [hfl, hfu]
    simp [ha]
  refine ⟨voteWrites db linkId userId, h1, ?_, ?_, ?_⟩
  · unfold castVote
    rw [hc2]
  · simp [scoreOf, hfl]
  · simp [scoreOf, hl]

/-- C4 witness: alice votes twice on the approved link of the sample
store. -/
theorem C4_atMostOnce_witness :
    ∃ db1, castVote dbA 1 10 = (db1, Except.ok (link1.score + 1)) ∧
      castVote db1 1 10 = (db1, Except.error VoteError.alreadyVoted) ∧
      scoreOf db1 1 = some (link1.score + 1) ∧
      scoreOf dbA 1 = some link1.score :=
  C4_atMostOnce dbA 1 10 link1 alice (by decide) (by decide) (by decide) (by decide)

/-- C5: listApproved returns exactly the links whose status is approved
(a permutation of the approved filter of the store, with membership
characterized), ordered by score descending with ties broken by createdAt
descending; links whose status is not approved never appear, regardless of
score. -/
theorem C5_listApprovedOrder (db : Db) :
    (listApproved db).Perm (db.links.filter (fun l => l.status == .approved)) ∧
    List.Pairwise linkRank (listApproved db) ∧
    (∀ l, l ∈ listApproved db ↔ (l ∈ db.links ∧ l.status = .approved)) ∧
    (∀ l, l ∈ db.links → l.status ≠ .approved → l ∉ listApproved db) := by
  have hperm : (listApproved db).Perm
      (db.links.filter (fun l => l.status == .approved)) :=
    List.perm_insertionSort linkRank _
  have hmem : ∀ l, l ∈ listApproved db ↔ (l ∈ db.links ∧ l.status = .approved) := by
    intro l
    rw [hperm.mem_iff, List.mem_filter]
    simp
  refine ⟨hperm, List.sorted_insertionSort linkRank _, hmem, ?_⟩
  intro l hl hs hcon
  exact hs ((hmem l).mp hcon).2

/-- C5 witness: on the sample store the approved link is listed and the
pending link is not. -/
theorem C5_listApprovedOrder_witness :
    link1 ∈ listApproved dbA ∧ link2 ∉ listApproved dbA :=
  ⟨((C5_listApprovedOrder dbA).2.2.1 link1).mpr ⟨by decide, by decide⟩,
   (C5_listApprovedOrder dbA).2.2.2 link2 (by decide) (by decide)⟩

/-- C6: for a caller resolving to a user and a non-empty url no existing
link carries, submitLink appends exactly one new Link with status pending,
score 0 and owner the caller, and responds with the created link's id,
url and status (plus the cached username). -/
theorem C6_submitCreatesPending (db : Db) (url : String) (userId now : Nat)
    (user : User) (hne : url ≠ "") (hu : findUser db userId = some user)
    (hdup : ∀ l ∈ db.links, l.url ≠ url) :
    submitLink db url userId now =
      ({ db with
          links := (db.links ++ [{ id := db.nextId, url := url, user := userId, username := user.username, status := .pending, score := 0, createdAt := now }]),
          nextId := db.nextId + 1 },
       .ok { id := db.nextId, url := url, status := .pending, username := user.username }) := by
  have hany : (db.links.any (fun l => l.url == url)) = false := by
    rw [List.any_eq_false]
    intro l hl
    simpa using hdup l hl
  unfold submitLink
  simp [hne, hu, hany]

/-- C6 witness: alice submits a fresh url to the sample store. -/
theorem C6_submitCreatesPending_witness :
    submitLink dbA "https://x.com/c" 10 7 =
      ({ dbA with
          links := (dbA.links ++ [{ id := 100, url := "https://x.com/c", user := 10, username := "alice", status := Status.pending, score := 0, createdAt := 7 }]),
          nextId := 101 },
       Except.ok { id := 100, url := "https://x.com/c", status := Status.pending, username := "alice" }) :=
  C6_submitCreatesPending dbA "https://x.com/c" 10 7 alice (by decide) (by decide)
    (by decide)

/-- C7 counterexample: submitting a url identical to an existing link's
url fails not with a distinguishable ConflictError but with the route's
generic catch-all 500 server error (the unique-index duplicate-key
exception is not matched by any specific branch of the catch block). -/
theorem C7_duplicateUrl_counterexample :
    (submitLink dbA "https://x.com/a" 10 7).2 = Except.error SubmitError.serverError ∧
    Except.error SubmitError.serverError ≠
      (Except.error SubmitError.conflictError :
        Except SubmitError SubmitResponse) := by decide

/-- C7 amended: submitLink fails — surfaced as the generic 500 server
error, not a distinguishable ConflictError — whenever a Link with an
identical url (case-sensitive exact match, no normalization) already
exists, and in that case the store is unchanged, so no new Link is
created. -/
theorem C7_duplicateUrl_amended (db : Db) (url : String) (userId now : Nat)
    (user : User) (hne : url ≠ "") (hu : findUser db userId = some user)
    (hdup : ∃ l ∈ db.links, l.url = url) :
    submitLink db url userId now = (db, Except.error SubmitError.serverError) := by
  have hany : (db.links.any (fun l => l.url == url)) = true := by
    rw [List.any_eq_true]
    obtain ⟨l, hl, he⟩ := hdup
    exact ⟨l, hl, by simp [he]⟩
  unfold submitLink
  simp [hne, hu, hany]

/-- C7 witness: resubmitting the sample store's existing url fails and
leaves the store unchanged. -/
theorem C7_duplicateUrl_witness :
    submitLink dbA "https://x.com/a" 10 7 =
      (dbA, Except.error SubmitError.serverError) :=
  C7_duplicateUrl_amended dbA "https://x.com/a" 10 7 alice (by decide) (by decide)
    ⟨link1, by decide, by decide⟩

/-- C8 counterexample: "not a url" is not syntactically a URL (no
scheme+host), yet submitLink accepts it, creating a new pending Link
record instead of failing with ValidationError. -/
theorem C8_malformedUrl_counterexample :
    isSyntacticURL "not a url" = false ∧
    (submitLink dbA "not a url" 10 7).2 =
      Except.ok { id := 100, url := "not a url", status := Status.pending,
                  username := "alice" } ∧
    (submitLink dbA "not a url" 10 7).1.links.length = dbA.links.length + 1 := by
  decide

/-- C8 amended: submitLink fails with its ValidationError (400 "URL is
required"), leaving the store unchanged, exactly when the url is empty;
for a non-empty url — well-formed or not — no syntactic URL validation is
performed and that error never occurs. -/
theorem C8_validation_amended (db : Db) (url : String) (userId now : Nat) :
    (url = "" → submitLink db url userId now = (db, .error .urlRequired)) ∧
    (url ≠ "" → (submitLink db url userId now).2 ≠ .error .urlRequired) := by
  constructor
  · intro h
    subst h
    rfl
  · intro hne hcon
    unfold submitLink at hcon
    rw [if_neg hne] at hcon
    cases hfu : findUser db userId <;> rw [hfu] at hcon <;> simp at hcon
    split at hcon <;> simp at hcon

/-- C8 witness: the empty url is rejected while a malformed non-empty url
is not rejected with the validation error. -/
theorem C8_validation_witness :
    submitLink dbA "" 10 7 = (dbA, Except.error SubmitError.urlRequired) ∧
    (submitLink dbA "not a url" 10 7).2 ≠ Except.error SubmitError.urlRequired :=
  ⟨(C8_validation_amended dbA "" 10 7).1 rfl,
   (C8_validation_amended dbA "not a url" 10 7).2 (by decide)⟩

/-- C9: the Moderation Gate's approve and reject succeed exactly on a
pending link, transitioning it to approved respectively rejected; on a
link in any non-pending state both fail with InvalidStateError and leave
the store — hence the status — unchanged, and in particular approving an
already-approved link fails with InvalidStateError rather than being
silently ignored. -/
theorem C9_moderationGate (db : Db) (linkId : Nat) (link : Link)
    (h : findLink db linkId = some link) :
    (link.status = .pending →
      ∃ db1, approve db linkId = (db1, .ok .approved) ∧
        findLink db1 linkId = some { link with status := .approved }) ∧
    (link.status = .pending →
      ∃ db2, reject db linkId = (db2, .ok .rejected) ∧
        findLink db2 linkId = some { link with status := .rejected }) ∧
    (link.status ≠ .pending →
      approve db linkId = (db, .error .invalidState) ∧
      reject db linkId = (db, .error .invalidState)) ∧
    (link.status = .approved → approve db linkId = (db, .error .invalidState)) := by
  refine ⟨?_, ?_, ?_, ?_⟩
  · intro hp
    refine ⟨setStatus db linkId .approved, ?_, ?_⟩
    · unfold approve
      rw [h]
      simp [hp]
    · rw [findLink_setStatus_self, h]
      rfl
  · intro hp
    refine ⟨setStatus db linkId .rejected, ?_, ?_⟩
    · unfold reject
      rw [h]
      simp [hp]
    · rw [findLink_setStatus_self, h]
      rfl
  · intro hp
    constructor
    · unfold approve
      rw [h]
      simp [hp]
    · unfold reject
      rw [h]
      simp [hp]
  · intro hp
    unfold approve
    rw [h]
    simp [hp]

/-- C9 witness: on the sample store, approving the pending link succeeds
and approving the already-approved link fails with InvalidStateError. -/
theorem C9_moderationGate_witness :
    (∃ db1, approve dbA 2 = (db1, Except.ok Status.approved) ∧
      findLink db1 2 = some { link2 with status := Status.approved }) ∧
    approve dbA 1 = (dbA, Except.error ModError.invalidState) :=
  ⟨(C9_moderationGate dbA 2 link2 (by decide)).1 (by decide),
   (C9_moderationGate dbA 1 link1 (by decide)).2.2.2 (by decide)⟩

/-- C10: a successful castVote modifies only the voting user's
`upvotedLinks` (appending the link id) and the voted link's `score`
(incrementing it by 1): the two changed documents are read back equal to
the originals except for exactly those fields, every document with any
other id is read back unchanged, and no document is added to or removed
from either collection. -/
theorem C10_voteFrame (db : Db) (linkId userId : Nat) (link : Link) (user : User)
    (hl : findLink db linkId = some link) (ha : link.status = .approved)
    (hu : findUser db userId = some user) (hnv : linkId ∉ user.upvotedLinks) :
    ∃ db1, castVote db linkId userId = (db1, .ok (link.score + 1)) ∧
      findUser db1 userId =
        some { user with upvotedLinks := user.upvotedLinks ++ [linkId] } ∧
      findLink db1 linkId = some { link with score := link.score + 1 } ∧
      (∀ j, j ≠ userId → findUser db1 j = findUser db j) ∧
      (∀ j, j ≠ linkId → findLink db1 j = findLink db j) ∧
      db1.users.length = db.users.length ∧
      db1.links.length = db.links.length := by
  obtain ⟨h1, hfl, hfu⟩ := castVote_success db linkId userId link user hl ha hu hnv
  obtain ⟨_, _, hLne, hUne⟩ := voteWrites_reads db linkId userId
  refine ⟨voteWrites db linkId userId, h1, hfu, hfl, hUne, hLne, ?_, ?_⟩
  · show (voteWrites db linkId userId).users.length = db.users.length
    unfold voteWrites incScore pushUpvote
    simp [length_updateFirstUser]
  · show (voteWrites db linkId userId).links.length = db.links.length
    unfold voteWrites incScore pushUpvote
    simp [length_updateFirstLink]

/-- C10 witness: alice's vote on the sample store changes exactly her
vote set and the link's score. -/
theorem C10_voteFrame_witness :
    ∃ db1, castVote dbA 1 10 = (db1, Except.ok (link1.score + 1)) ∧
      findUser db1 10 =
        some { alice with upvotedLinks := alice.upvotedLinks ++ [1] } ∧
      findLink db1 1 = some { link1 with score := link1.score + 1 } ∧
      (∀ j, j ≠ 10 → findUser db1 j = findUser dbA j) ∧
      (∀ j, j ≠ 1 → findLink db1 j = findLink dbA j) ∧
      db1.users.length = dbA.users.length ∧
      db1.links.length = dbA.links.length :=
  C10_voteFrame dbA 1 10 link1 alice (by decide) (by decide) (by decide) (by decide)

end Agg
